import Mathlib

/-!
Shallow embedding of the extraction-and-rendering pipeline of the `hors`
repository (src/src/answer.rs and src/src/engine/google.rs).

HTML documents are modelled as a forest of nodes, mirroring the view the
`select` crate gives the code: elements carry a tag name, an attribute
list and children; text nodes carry a string.  Parsing raw HTML text into
this forest is the tolerant external parser and lies outside the core, so
the embedding's functions consume the parsed forest directly.

The external collaborators (the `syntect` highlighting library, the HTTP
client, the `url` parser) are passed in as explicit oracles, exactly at
the call boundaries the Rust code uses them.
-/

namespace Hors

/-- A DOM node as seen through the `select` crate: an element with a tag
name, attributes and children, or a raw text node. -/
inductive Node where
  | elem (name : String) (attrs : List (String × String)) (children : List Node)
  | text (s : String)

/-- Rust-side `node.attr(key)`: look up an attribute value; text nodes have none. -/
def Node.attr (n : Node) (key : String) : Option String :=
  match n with
  | .elem _ attrs _ => (attrs.find? (fun p => p.1 == key)).map Prod.snd
  | .text _ => none

/-- Rust-side `node.name()`: the element's tag name, `none` for a text node. -/
def Node.name? : Node → Option String
  | .elem nm _ _ => some nm
  | .text _ => none

/-- Rust-side `node.children()`: direct children, in document order. -/
def Node.children : Node → List Node
  | .elem _ _ cs => cs
  | .text _ => []

/-- The whitespace-separated words of the node's `class` attribute
(the `select` crate's `Class` predicate splits on whitespace). -/
def Node.classes (n : Node) : List String :=
  ((((n.attr "class").getD "").data.splitOnP (fun c => c.isWhitespace)).filter
    (fun s => s ≠ [])).map (fun l => String.mk l)

/-- Whether the `select` `Class(c)` predicate matches the node. -/
def Node.hasClass (n : Node) (c : String) : Bool :=
  n.classes.contains c

/-- Whether the `select` `Name(nm)` predicate matches the node. -/
def Node.isNamed (n : Node) (nm : String) : Bool :=
  n.name? == some nm

mutual
/-- Rust-side `node.text()`: concatenated text of all text descendants, in order. -/
def Node.textContent : Node → String
  | .text s => s
  | .elem _ _ cs => textContentList cs

/-- Text content of a list of sibling nodes, concatenated in order. -/
def textContentList : List Node → String
  | [] => ""
  | n :: ns => Node.textContent n ++ textContentList ns
end

mutual
/-- Preorder (document-order) listing of a node and all its descendants. -/
def Node.preorder : Node → List Node
  | .text s => [.text s]
  | .elem nm attrs cs => .elem nm attrs cs :: forestPreorder cs

/-- Preorder listing of a forest of sibling subtrees. -/
def forestPreorder : List Node → List Node
  | [] => []
  | n :: ns => Node.preorder n ++ forestPreorder ns
end

/-- The `select` crate's `node.find(pred)` searches the node's
descendants (the node itself excluded) in document order. -/
def Node.descendants (n : Node) : List Node :=
  forestPreorder n.children

/-- A parsed document: the forest of root nodes. -/
abbrev Doc := List Node

/-- Document-level `doc.find(pred)`: every node of the document matching `pred`,
in document order. -/
def docFind (p : Node → Bool) (doc : Doc) : List Node :=
  (forestPreorder doc).filter p

/-- Rust's `str::contains(pat)`: `pat` occurs as a contiguous substring. -/
def strContains (s pat : String) : Bool :=
  decide (pat.data <:+: s.data)

/-! ## The syntect boundary

`colorized_code` loads syntect's syntax and theme sets and renders the
code line by line as 24-bit ANSI escapes.  The loading and the per-line
escaping are the external crate's work; the repository's own logic is the
token-based grammar guess and its application.  The crate is therefore an
oracle with the three entry points the code calls. -/

/-- The syntect entry points used by answer.rs: `find_syntax_by_token`,
`find_syntax_plain_text`, and the line-by-line ANSI rendering of a code
string under a chosen syntax (`HighlightLines` + `as_24_bit_terminal_escaped`
over `LinesWithEndings`). -/
structure Syntect (Syn : Type) where
  findSyntaxByToken : String → Option Syn
  plainText : Syn
  highlight : Syn → String → String

/-- Function `guess_syntax` of answer.rs: probe the tags in order; the first tag
that `find_syntax_by_token` resolves wins; else the plain-text syntax. -/
def guess_syntax {Syn : Type} (st : Syntect Syn) : List String → Syn
  | [] => st.plainText
  | tag :: rest =>
    match st.findSyntaxByToken tag with
    | some result => result
    | none => guess_syntax st rest

/-- Function `colorized_code` of answer.rs: render the code under the guessed
syntax (the rendering itself is syntect's, see `Syntect.highlight`). -/
def colorized_code {Syn : Type} (st : Syntect Syn) (code : String)
    (possible_tags : List String) : String :=
  st.highlight ( guess_syntax st possible_tags) code

/-! ## Configuration

The `Config` type lives in src/config.rs, which is not part of the given
sources; answer.rs only calls its getters.  Modelled from the spec: the
output mode is a closed three-case variant (`LinksOnly`/`CodeOnly`/`Detailed`,
named `Links`/`OnlyCode`/`All` as in the code's match arms), and the
requested result count and colorize flag are externally supplied values. -/

/-- The three output modes matched on in answer.rs. -/
inductive OutputOption where
  | Links
  | OnlyCode
  | All

/-- Modelled from the spec: the resolved configuration values the core
consumes (src/config.rs is outside the given sources) — the output mode,
the requested result count and the colorize flag. -/
structure Config where
  option : OutputOption
  numbers : Nat
  colorize : Bool

/-! ## AnswerExtractor (answer.rs) -/

/-- Function `parse_answer_instruction`: first `<pre>` descendant's text, else
first `<code>` descendant's text, else `None`; colorized when asked. -/
def parse_answer_instruction {Syn : Type} (st : Syntect Syn) (answer_node : Node)
    (question_tags : List String) (should_colorize : Bool) : Option String :=
  match answer_node.descendants.find? (fun n => n.isNamed "pre") with
  | some title =>
    if should_colorize then some (colorized_code st title.textContent question_tags)
    else some title.textContent
  | none =>
    match answer_node.descendants.find? (fun n => n.isNamed "code") with
    | some code_instruction =>
      if should_colorize then
        some (colorized_code st code_instruction.textContent question_tags)
      else some code_instruction.textContent
    | none => none

/-- The body of the `for sub_node in instruction.children()` loop of
`parse_answer_detailed`, as a fold step over the accumulated string: the
match arms `Some("pre")` / `Some("code")` / `Some(_)` / `None` append the
colorized code plus a newline, the colorized code, the text plus a blank
line, or nothing (`continue`). -/
def detailedFoldStep {Syn : Type} (st : Syntect Syn) (question_tags : List String)
    (formatted_answer : String) (sub_node : Node) : String :=
  match sub_node.name? with
  | some nm =>
    if nm = "pre" then
      formatted_answer ++ (colorized_code st sub_node.textContent question_tags ++ "\n")
    else if nm = "code" then
      formatted_answer ++ colorized_code st sub_node.textContent question_tags
    else
      formatted_answer ++ (sub_node.textContent ++ "\n\n")
  | none => formatted_answer

/-- Function `parse_answer_detailed`: first `post-text`-class descendant; flattened
text when not colorizing, otherwise the child-by-child reconstruction of
`detailedFoldStep` starting from the empty string. -/
def parse_answer_detailed {Syn : Type} (st : Syntect Syn) (answer_node : Node)
    (question_tags : List String) (should_colorize : Bool) : Option String :=
  match answer_node.descendants.find? (fun n => n.hasClass "post-text") with
  | some instruction =>
    if should_colorize = false then
      some instruction.textContent
    else
      some (instruction.children.foldl (detailedFoldStep st question_tags) "")
  | none => none

/-- The panic message of `parse_answer`'s unreachable `Links` arm. -/
def parseAnswerPanicMsg : String :=
  "parse_answer shoudn't get config with OutputOption::Link"

/-- Function `parse_answer`: collect the `post-tag`-class texts, find the first
`answer`-class element, and dispatch on the output mode.  The Rust
function returns `Option<String>` and panics on the `Links` arm; the
panic is modelled as `Except.error`. -/
def parse_answer {Syn : Type} (st : Syntect Syn) (page : Doc) (config : Config) :
    Except String (Option String) :=
  let question_tags : List String :=
    (docFind (fun n => n.hasClass "post-tag") page).map Node.textContent
  match (docFind (fun n => n.hasClass "answer") page).head? with
  | some answer =>
    match config.option with
    | .OnlyCode => .ok (parse_answer_instruction st answer question_tags config.colorize)
    | .All => .ok (parse_answer_detailed st answer question_tags config.colorize)
    | .Links => .error parseAnswerPanicMsg
  | none => .ok none

/-! ## Orchestrator (answer.rs) -/

/-- The `SPLITTER` divider constant of answer.rs: a newline, the banner
line `^_^ <52 equals signs> ^_^`, and two newlines (the banner's equals
run is written with `List.replicate` rather than spelled out). -/
def SPLITTER : String :=
  "\n^_^ " ++ String.mk (List.replicate 52 '=') ++ " ^_^\n\n"

/-- How `get_detailed_answer` can fail: a `?`-propagated transport error
while fetching one link's page, or a panic escaping `parse_answer`. -/
inductive DError where
  | fetchError (link : String) (e : String)
  | panicked (msg : String)
deriving DecidableEq

/-- The `for _ in 0..conf.numbers()` loop of `get_detailed_answer`: each
iteration consumes one count slot and advances the links iterator; a link
without the "question" marker is skipped (`continue`); otherwise the page
is fetched (`?` propagates a fetch failure) and parsed, pushing either the
titled answer block or the "Can't get answer" placeholder. -/
def detailedLoop {Syn : Type} (st : Syntect Syn) (fetch : String → Except String Doc)
    (conf : Config) : Nat → List String → List String → Except DError (List String)
  | 0, _, results => .ok results
  | _ + 1, [], results => .ok results
  | n + 1, link :: rest, results =>
    if strContains link "question" = false then
      detailedLoop st fetch conf n rest results
    else
      match fetch link with
      | .error e => .error (.fetchError link e)
      | .ok page =>
        match parse_answer st page conf with
        | .error msg => .error (.panicked msg)
        | .ok (some content) =>
          detailedLoop st fetch conf n rest
            (results ++ ["- Answer from " ++ link ++ "\n" ++ content])
        | .ok none =>
          detailedLoop st fetch conf n rest (results ++ ["Can't get answer from " ++ link])

/-- Function `get_detailed_answer`: run the loop for `conf.numbers()` slots over
the links and join the collected blocks with `SPLITTER`.  The HTTP client
(user agent, cookie store) is the external collaborator `fetch`, which
yields a fetched page already parsed into the node forest. -/
def get_detailed_answer {Syn : Type} (st : Syntect Syn)
    (fetch : String → Except String Doc) (links : List String) (conf : Config) :
    Except DError String :=
  (detailedLoop st fetch conf conf.numbers links []).map (String.intercalate SPLITTER)

/-- Rust's `str::replace("-", " ")` acts character-wise because the
pattern is a single character: each hyphen becomes a space. -/
def hyphenToSpace (c : Char) : Char :=
  if c = '-' then ' ' else c

/-- Function `extract_question`: split the path on "/", take the last segment
(`splitted[splitted.len() - 1]`), and replace every hyphen with a space. -/
def extract_question (path : String) : String :=
  let splitted : List (List Char) := path.data.splitOn '/'
  ⟨(splitted.getD (splitted.length - 1) []).map hyphenToSpace⟩

/-- A parsed URL as used by the links-only path: only `url.path()` is
consumed.  `Url::parse` is the external `url` crate, an oracle below. -/
structure Url where
  path : String

/-- The `expect` message on `Url::parse` in `get_results_with_links_only`. -/
def urlPanicMsg : String :=
  "Parse url failed, if you receive this message, please fire an issue."

/-- The `while index < length && index < restricted_length` loop of
`get_results_with_links_only`, stepped with explicit fuel: `none` means
the fuel ran out (the loop had not terminated), `some (.error m)` is the
`expect` panic on `Url::parse`, `some (.ok results)` is normal exit.
Note the loop body's `continue` on a link without the "question" marker
does not increment `index`. -/
def linksOnlyLoop (urlParse : String → Option Url) (links : List String)
    (restricted_length : Nat) :
    Nat → Nat → List String → Option (Except String (List String))
  | 0, _, _ => none
  | fuel + 1, index, results =>
    if h : index < links.length ∧ index < restricted_length then
      let link := links.get ⟨index, h.1⟩
      if strContains link "question" = false then
        linksOnlyLoop urlParse links restricted_length fuel index results
      else
        match urlParse link with
        | none => some (.error urlPanicMsg)
        | some url =>
          linksOnlyLoop urlParse links restricted_length fuel (index + 1)
            (results ++ ["Title - " ++ extract_question url.path ++ "\n" ++ link])
    else
      some (.ok results)

/-- Function `get_results_with_links_only`: run the while loop from `index = 0`
with empty results and join with `SPLITTER`; fuel as in `linksOnlyLoop`. -/
def get_results_with_links_only (urlParse : String → Option Url)
    (links : List String) (restricted_length : Nat) (fuel : Nat) :
    Option (Except String String) :=
  (linksOnlyLoop urlParse links restricted_length fuel 0 []).map
    (Except.map (String.intercalate SPLITTER))

/-! ## LinkExtractor (engine/google.rs) -/

mutual
/-- Nodes matching `Class("r").descendant(Name("a"))` inside one subtree,
in document order: `<a>` elements having a strict ancestor of class "r".
`underR` records whether such an ancestor is already above us. -/
def anchorsUnder (underR : Bool) : Node → List Node
  | .text _ => []
  | .elem nm attrs cs =>
    let self := Node.elem nm attrs cs
    (if underR && nm == "a" then [self] else []) ++
      anchorsUnderForest (underR || self.hasClass "r") cs

/-- Traversal `anchorsUnder` over a forest of sibling subtrees. -/
def anchorsUnderForest (underR : Bool) : List Node → List Node
  | [] => []
  | n :: ns => anchorsUnder underR n ++ anchorsUnderForest underR ns
end

/-- The elements `doc.find(Class("r").descendant(Name("a")))` yields, in
document order. -/
def matchedAnchors (doc : Doc) : List Node :=
  anchorsUnderForest false doc

/-- Function `extract_links` of engine/google.rs: collect each matched anchor's
`href` attribute (an anchor without one contributes nothing); return
`None` when the collected list is empty, `Some links` otherwise. -/
def extract_links (page : Doc) : Option (List String) :=
  let links : List String := (matchedAnchors page).filterMap (fun n => n.attr "href")
  if links.length = 0 then none else some links

/-! ## Spec-side definitions

These restate parts of the specification in their own words, to be
compared with the definitions translated from the source. -/

/-- The number of links the code's filter accepts: links containing the
literal substring "question" anywhere in the full URL string, exactly as
`link.contains("question")` tests it.  Note this is wider than the spec's
data-model notion of a question link, which looks only at the URL's path
(see `pathQuestionLinkCount`). -/
def questionLinkCount (links : List String) : Nat :=
  links.countP (fun l => strContains l "question")

/-- Modelled from the spec: the claimed notion of a question link — a URL
whose PATH contains the substring "question" — counted through the
URL-parsing oracle (a link the oracle cannot parse has no path and is not
counted). -/
def pathQuestionLinkCount (urlParse : String → Option Url) (links : List String) : Nat :=
  (links.filterMap urlParse).countP (fun u => strContains u.path "question")

/-- The spec's rendering of extracted code: through the highlighter when
the colorize flag is set, verbatim otherwise. -/
def renderCode {Syn : Type} (st : Syntect Syn) (colorize : Bool)
    (tags : List String) (code : String) : String :=
  if colorize then colorized_code st code tags else code

/-- The spec's per-child contribution in the detailed colorized walk: a
`<pre>` child contributes its highlighted text plus one newline, a
`<code>` child its highlighted text, any other named element its text
plus a blank line, and an unnamed text node contributes nothing. -/
def detailedChildBlock {Syn : Type} (st : Syntect Syn) (tags : List String)
    (sub_node : Node) : String :=
  match sub_node.name? with
  | some nm =>
    if nm = "pre" then colorized_code st sub_node.textContent tags ++ "\n"
    else if nm = "code" then colorized_code st sub_node.textContent tags
    else sub_node.textContent ++ "\n\n"
  | none => ""

/-- The spec's detailed colorized result: the concatenation, in order, of
the per-child contributions of the walked element's direct children. -/
def renderedChildList {Syn : Type} (st : Syntect Syn) (tags : List String) :
    List Node → String
  | [] => ""
  | c :: cs => detailedChildBlock st tags c ++ renderedChildList st tags cs

/-! ## Concrete fixtures for witnesses and counterexamples -/

/-- A trivial syntect oracle: no token resolves, and rendering under any
syntax returns the code unchanged. -/
def idSyntect : Syntect Unit :=
  ⟨fun _ => none, (), fun _ s => s⟩

/-- A question page: one `answer`-class element holding a `post-text`
container with a paragraph and a `<pre>` code block. -/
def ansDoc : Doc :=
  [Node.elem "div" [("class", "answer")] [
     Node.elem "div" [("class", "post-text")] [
       Node.elem "p" [] [Node.text "Use foo."],
       Node.elem "pre" [] [Node.text "code here\n"]]]]

/-- A fetcher for which every link yields `ansDoc`. -/
def okFetch : String → Except String Doc :=
  fun _ => .ok ansDoc

/-- A fetcher failing on the first example question link only. -/
def failFetch : String → Except String Doc :=
  fun l => if l = "https://site/questions/1/a" then .error "boom" else .ok ansDoc

/-- A search page with one `class="r"` container whose anchor carries no
`href` attribute. -/
def rDocNoHref : Doc :=
  [Node.elem "div" [("class", "r")] [Node.elem "a" [] []]]

/-- The search page of google.rs's own unit test: two `class="r"`
containers with href-carrying anchors. -/
def gDoc : Doc :=
  [Node.elem "html" [] [Node.elem "body" [] [
    Node.elem "div" [("class", "g")] [Node.elem "div" [("class", "r")] [
      Node.elem "a" [("href", "https://test_link1")] []]],
    Node.elem "div" [("class", "g")] [Node.elem "div" [("class", "r")] [
      Node.elem "a" [("href", "https://test_link2")] []]]]]]

/-- The example link list for the detailed-mode fixtures. -/
def exLinks : List String :=
  ["https://site/questions/1/a", "https://site/other/page"]

/-- A link whose host contains "question" but whose path does not. -/
def hostQuestionLink : String :=
  "https://question.example.com/foo"

/-- The URL oracle for `hostQuestionLink`: it parses to the path "/foo"
(what the url crate returns for that URL) and rejects anything else. -/
def hostQuestionParse : String → Option Url :=
  fun l => if l = hostQuestionLink then some ⟨"/foo"⟩ else none

/-- The single detailed-mode block `okFetch` produces on `exLinks`. -/
def exBlock : String :=
  "- Answer from https://site/questions/1/a\nUse foo.code here\n"

end Hors

namespace Hors

/-! ## Helper lemmas -/

/-- The first element an iterator-style `find` yields is the head of the
filtered list. -/
theorem find?_eq_head?_filter {α : Type} (p : α → Bool) (l : List α) :
    l.find? p = (l.filter p).head? := by
  induction l with
  | nil => rfl
  | cons x xs ih =>
    cases h : p x with
    | true => simp [List.find?_cons_of_pos xs h, List.filter_cons, h]
    | false =>
      rw [List.find?_cons_of_neg xs (by simp [h]), List.filter_cons, if_neg (by simp [h])]
      exact ih

/-- Indexing a list at `length - 1` is taking its last element. -/
theorem getD_length_sub_one {α : Type} (l : List α) (d : α) :
    l.getD (l.length - 1) d = l.getLast?.getD d := by
  induction l with
  | nil => rfl
  | cons x xs ih =>
    cases xs with
    | nil => rfl
    | cons y ys =>
      have h1 : (x :: y :: ys).getD ((x :: y :: ys).length - 1) d
          = (y :: ys).getD ((y :: ys).length - 1) d := by
        simp [List.getD_cons_succ]
      rw [h1, ih, List.getLast?_cons_cons]

/-- The `push_str` fold of `parse_answer_detailed` concatenates the
per-child contributions after the seed string. -/
theorem foldl_detailedFoldStep {Syn : Type} (st : Syntect Syn) (tags : List String)
    (l : List Node) : ∀ s : String,
    l.foldl (detailedFoldStep st tags) s = s ++ renderedChildList st tags l := by
  induction l with
  | nil =>
    intro s
    simp [renderedChildList, String.append_empty]
  | cons c cs ih =>
    intro s
    have hstep : detailedFoldStep st tags s c = s ++ detailedChildBlock st tags c := by
      cases hn : c.name? with
      | none => simp [detailedFoldStep, detailedChildBlock, hn, String.append_empty]
      | some nm =>
        by_cases h1 : nm = "pre"
        · simp [detailedFoldStep, detailedChildBlock, hn, h1]
        · by_cases h2 : nm = "code"
          · simp [detailedFoldStep, detailedChildBlock, hn, h1, h2]
          · simp [detailedFoldStep, detailedChildBlock, hn, h1, h2]
    rw [List.foldl_cons, hstep, ih]
    simp [renderedChildList, String.append_assoc]

/-- Each completed run of the detailed loop adds at most
`min n (question links remaining)` blocks to the accumulator. -/
theorem detailedLoop_length_le {Syn : Type} (st : Syntect Syn)
    (fetch : String → Except String Doc) (conf : Config) :
    ∀ (n : Nat) (links acc blocks : List String),
      detailedLoop st fetch conf n links acc = .ok blocks →
      blocks.length ≤ acc.length + min n (questionLinkCount links) := by
  intro n
  induction n with
  | zero =>
    intro links acc blocks h
    simp only [detailedLoop, Except.ok.injEq] at h
    subst h
    simp
  | succ m ih =>
    intro links acc blocks h
    cases links with
    | nil =>
      simp only [detailedLoop, Except.ok.injEq] at h
      subst h
      simp
    | cons link rest =>
      rw [detailedLoop] at h
      cases hq : strContains link "question" with
      | false =>
        rw [hq, if_pos rfl] at h
        have hrec := ih rest acc blocks h
        have hcount : questionLinkCount (link :: rest) = questionLinkCount rest := by
          simp [questionLinkCount, List.countP_cons, hq]
        rw [hcount]
        omega
      | true =>
        rw [hq, if_neg (by simp)] at h
        have hcount : questionLinkCount (link :: rest) = questionLinkCount rest + 1 := by
          simp [questionLinkCount, List.countP_cons, hq]
        cases hf : fetch link with
        | error e =>
          simp only [hf] at h
          exact absurd h (by simp)
        | ok page =>
          simp only [hf] at h
          cases hp : parse_answer st page conf with
          | error msg =>
            simp only [hp] at h
            exact absurd h (by simp)
          | ok oans =>
            simp only [hp] at h
            cases oans with
            | some content =>
              have hrec := ih rest
                (acc ++ ["- Answer from " ++ link ++ "\n" ++ content]) blocks h
              simp only [List.length_append, List.length_cons, List.length_nil] at hrec
              rw [hcount]
              omega
            | none =>
              have hrec := ih rest (acc ++ ["Can't get answer from " ++ link]) blocks h
              simp only [List.length_append, List.length_cons, List.length_nil] at hrec
              rw [hcount]
              omega

/-- On any list whose first in-range link lacks the "question" marker,
the links-only loop never leaves index `0` and never exits. -/
theorem linksOnlyLoop_stuck (urlParse : String → Option Url) :
    ∀ (fuel : Nat) (results : List String),
      linksOnlyLoop urlParse ["https://example.com/other-page"] 1 fuel 0 results = none := by
  intro fuel
  induction fuel with
  | zero =>
    intro results
    rfl
  | succ m ih =>
    intro results
    have hq : strContains "https://example.com/other-page" "question" = false := by decide
    rw [linksOnlyLoop, dif_pos (by constructor <;> simp)]
    simp only [List.get, hq, if_pos rfl]
    exact ih results

/-! ## Claim theorems -/

/-- C8: `guess_syntax` returns the grammar of the first hint tag, in list
order, that `find_syntax_by_token` resolves, independent of later tags,
and falls back to the plain-text syntax when no tag resolves — so an
unrecognized hint never fails the call. -/
theorem guess_syntax_first_match {Syn : Type} (st : Syntect Syn) (tags : List String) :
    guess_syntax st tags = (tags.findSome? st.findSyntaxByToken).getD st.plainText := by
  induction tags with
  | nil => rfl
  | cons t ts ih =>
    cases h : st.findSyntaxByToken t with
    | some s => simp [ guess_syntax, List.findSome?_cons, h]
    | none => simp [ guess_syntax, List.findSome?_cons, h, ih]

/-- C9: `extract_question` maps a URL path to its last "/"-separated
segment with every hyphen replaced by a space; in particular it sends
"questions/12345/the-specific-question" to "the specific question". -/
theorem extract_question_spec :
    extract_question "questions/12345/the-specific-question" = "the specific question" ∧
    ∀ path : String, extract_question path =
      String.mk (((path.data.splitOn '/').getLast?.getD []).map hyphenToSpace) := by
  constructor
  · decide
  · intro path
    simp only [extract_question]
    rw [getD_length_sub_one]

/-- C5: on a question page with no "answer"-class element, `parse_answer`
returns `None` (modelled `.ok none`) for every configuration — any mode,
any colorize flag, any other markup on the page. -/
theorem parse_answer_no_answer_node {Syn : Type} (st : Syntect Syn) (page : Doc)
    (config : Config) (h : docFind (fun n => n.hasClass "answer") page = []) :
    parse_answer st page config = .ok none := by
  simp [parse_answer, h]

/-- Witness for C5 at an empty page in colorized detailed mode. -/
theorem parse_answer_no_answer_node_witness :
    parse_answer idSyntect [] ⟨.All, 1, true⟩ = .ok none :=
  parse_answer_no_answer_node idSyntect [] ⟨.All, 1, true⟩ (by simp [docFind, forestPreorder])

/-- C10: a links-only batch whose in-range links start with a link that
carries the "question" marker but fails URL parsing hits the `expect` and
panics, aborting the whole batch instead of skipping the link. -/
theorem links_only_malformed_url_panics (urlParse : String → Option Url) (link : String)
    (restricted_length fuel : Nat)
    (hq : strContains link "question" = true) (hu : urlParse link = none)
    (hn : 0 < restricted_length) (hf : 0 < fuel) :
    get_results_with_links_only urlParse [link] restricted_length fuel =
      some (.error urlPanicMsg) := by
  cases fuel with
  | zero => omega
  | succ m =>
    rw [get_results_with_links_only, linksOnlyLoop,
      dif_pos (⟨by simp, hn⟩ : 0 < ([link] : List String).length ∧ 0 < restricted_length)]
    simp [List.get, hq, hu, Except.map]

/-- Witness for C10: a single malformed question link panics at once. -/
theorem links_only_malformed_url_panics_witness :
    get_results_with_links_only (fun _ => none) ["not-a-url-question"] 1 1 =
      some (.error urlPanicMsg) :=
  links_only_malformed_url_panics (fun _ => none) "not-a-url-question" 1 1
    (by decide) rfl (by decide) (by decide)

/-- C6: in CodeOnly mode the extraction returns the text of the first
`<pre>` descendant if any, else the text of the first `<code>` descendant
if any, else `None`; the text goes through the highlighter exactly when
the colorize flag is set and is returned verbatim otherwise. -/
theorem parse_answer_instruction_spec {Syn : Type} (st : Syntect Syn)
    (answer_node : Node) (tags : List String) (colorize : Bool) :
    parse_answer_instruction st answer_node tags colorize =
      match (answer_node.descendants.filter (fun n => n.isNamed "pre")).head? with
      | some p => some (renderCode st colorize tags p.textContent)
      | none =>
        match (answer_node.descendants.filter (fun n => n.isNamed "code")).head? with
        | some c => some (renderCode st colorize tags c.textContent)
        | none => none := by
  simp only [parse_answer_instruction, find?_eq_head?_filter]
  cases (answer_node.descendants.filter fun n => n.isNamed "pre").head? with
  | some p => cases colorize <;> simp [renderCode]
  | none =>
    cases (answer_node.descendants.filter fun n => n.isNamed "code").head? with
    | some c => cases colorize <;> simp [renderCode]
    | none => rfl

/-- C7: in Detailed mode, on the first "post-text" descendant: with
colorize true the result concatenates the direct children's contributions
in order (`<pre>` → highlighted text plus newline, `<code>` → highlighted
text, other named element → its text plus a blank line, unnamed text node
→ nothing); with colorize false the result is the flattened text content;
with no "post-text" descendant the result is `None`. -/
theorem parse_answer_detailed_spec {Syn : Type} (st : Syntect Syn)
    (answer_node : Node) (tags : List String) :
    parse_answer_detailed st answer_node tags true =
      ((answer_node.descendants.filter (fun n => n.hasClass "post-text")).head?).map
        (fun instruction => renderedChildList st tags instruction.children) ∧
    parse_answer_detailed st answer_node tags false =
      ((answer_node.descendants.filter (fun n => n.hasClass "post-text")).head?).map
        Node.textContent := by
  constructor <;>
  · simp only [parse_answer_detailed, find?_eq_head?_filter]
    cases (answer_node.descendants.filter fun n => n.hasClass "post-text").head? with
    | some instruction => simp [foldl_detailedFoldStep, String.empty_append]
    | none => rfl

/-- C1 counterexample: with a fetch oracle failing on the first question
link, `get_detailed_answer` returns the propagated transport error — not
an `Ok` string holding a placeholder block for that link and the answer
for the remaining link. -/
theorem fetch_failure_aborts_counterexample :
    get_detailed_answer idSyntect failFetch
      ["https://site/questions/1/a", "https://site/questions/2/b"] ⟨.All, 2, false⟩ =
      .error (.fetchError "https://site/questions/1/a" "boom") := by
  have h1 : strContains "https://site/questions/1/a" "question" = true := by decide
  simp [get_detailed_answer, detailedLoop, failFetch, h1, Except.map]

/-- C1 amended: a fetch failure on a question link is propagated by `?`
as an error that aborts the whole batch at that link, whatever links
remain and whatever blocks were already accumulated; no placeholder block
is produced for the failing link. -/
theorem fetch_failure_propagates {Syn : Type} (st : Syntect Syn)
    (fetch : String → Except String Doc) (conf : Config) (n : Nat) (link : String)
    (rest acc : List String) (e : String)
    (hq : strContains link "question" = true) (hf : fetch link = .error e) :
    detailedLoop st fetch conf (n + 1) (link :: rest) acc = .error (.fetchError link e) := by
  rw [detailedLoop, hq, if_neg (by simp), hf]

/-- Witness for the amended C1 at the concrete failing fetch. -/
theorem fetch_failure_propagates_witness :
    detailedLoop idSyntect failFetch ⟨.All, 2, false⟩ 2
      ["https://site/questions/1/a", "https://site/questions/2/b"] [] =
      .error (.fetchError "https://site/questions/1/a" "boom") :=
  fetch_failure_propagates idSyntect failFetch ⟨.All, 2, false⟩ 1
    "https://site/questions/1/a" ["https://site/questions/2/b"] [] "boom"
    (by decide) rfl

/-- C3 counterexample: on the single link "https://question.example.com/foo",
whose path "/foo" lacks "question", the detailed loop still produces one
block — the code's `link.contains("question")` filter matches the host —
so the block count exceeds `min(requested count, path-question links) = 0`
and the claim's path-based bound is false of the code. -/
theorem detailed_block_bound_counterexample :
    detailedLoop idSyntect okFetch ⟨.All, 1, false⟩ 1 [hostQuestionLink] [] =
      .ok ["- Answer from " ++ hostQuestionLink ++ "\n" ++ "Use foo.code here\n"] ∧
    pathQuestionLinkCount hostQuestionParse [hostQuestionLink] = 0 ∧
    ¬ (1 ≤ min 1 (pathQuestionLinkCount hostQuestionParse [hostQuestionLink])) := by
  have hq : strContains hostQuestionLink "question" = true := by decide
  have hpath : pathQuestionLinkCount hostQuestionParse [hostQuestionLink] = 0 := by
    have hp : strContains "/foo" "question" = false := by decide
    simp [pathQuestionLinkCount, hostQuestionParse, List.countP_cons, hp]
  refine ⟨?_, hpath, ?_⟩
  · simp [detailedLoop, okFetch, hq, parse_answer, docFind, forestPreorder, Node.preorder,
      Node.hasClass, Node.classes, Node.attr, Node.textContent, textContentList,
      parse_answer_detailed, Node.descendants, Node.children, Node.isNamed, Node.name?,
      ansDoc, idSyntect]
  · rw [hpath]
    decide

/-- C3 amended: a completed detailed-mode run never yields more blocks
than `min(requested count, number of links containing "question")`, the
question-link test being the code's `link.contains("question")` on the
whole URL string rather than the spec's path-only notion; the output is
exactly those blocks joined with the literal `SPLITTER` divider. -/
theorem get_detailed_answer_block_bound {Syn : Type} (st : Syntect Syn)
    (fetch : String → Except String Doc) (links : List String) (conf : Config)
    (blocks : List String)
    (h : detailedLoop st fetch conf conf.numbers links [] = .ok blocks) :
    blocks.length ≤ min conf.numbers (questionLinkCount links) ∧
    get_detailed_answer st fetch links conf = .ok (String.intercalate SPLITTER blocks) ∧
    SPLITTER.data = ['\n', '^', '_', '^', ' '] ++ List.replicate 52 '=' ++
      [' ', '^', '_', '^', '\n', '\n'] := by
  refine ⟨?_, ?_, by decide⟩
  · have hb := detailedLoop_length_le st fetch conf conf.numbers links [] blocks h
    simpa using hb
  · rw [get_detailed_answer, h]
    rfl

/-- Witness for C3: two links, one of them a question link, requested
count two, one block produced. -/
theorem get_detailed_answer_block_bound_witness :
    [exBlock].length ≤ min 2 (questionLinkCount exLinks) ∧
    get_detailed_answer idSyntect okFetch exLinks ⟨.All, 2, false⟩ =
      .ok (String.intercalate SPLITTER [exBlock]) ∧
    SPLITTER.data = ['\n', '^', '_', '^', ' '] ++ List.replicate 52 '=' ++
      [' ', '^', '_', '^', '\n', '\n'] :=
  get_detailed_answer_block_bound idSyntect okFetch exLinks ⟨.All, 2, false⟩ [exBlock]
    (by
      have h1 : strContains "https://site/questions/1/a" "question" = true := by decide
      have h2 : strContains "https://site/other/page" "question" = false := by decide
      simp [detailedLoop, exLinks, okFetch, h1, h2, exBlock, parse_answer, docFind,
        forestPreorder, Node.preorder, Node.hasClass, Node.classes, Node.attr,
        Node.textContent, textContentList, parse_answer_detailed, Node.descendants,
        Node.children, Node.isNamed, Node.name?, idSyntect])

/-- C4 counterexample: a page with one matched container-class anchor
that carries no `href` attribute — one matching element is found, yet
`extract_links` still returns `None`. -/
theorem extract_links_counterexample :
    (matchedAnchors rDocNoHref).length = 1 ∧ extract_links rDocNoHref = none := by
  constructor
  · simp [matchedAnchors, anchorsUnderForest, anchorsUnder, Node.hasClass,
      Node.classes, Node.attr, rDocNoHref]
  · simp [extract_links, matchedAnchors, anchorsUnderForest, anchorsUnder,
      Node.hasClass, Node.classes, Node.attr, rDocNoHref]

/-- C4 amended: `extract_links` returns `None` exactly when zero `href`
attributes are collected from the matched anchors (a matched anchor
without an `href` contributes nothing); otherwise it returns `Some` of
the collected hrefs in document order, never `Some []`. -/
theorem extract_links_characterization (page : Doc) :
    (extract_links page = none ↔
      (matchedAnchors page).filterMap (fun n => n.attr "href") = []) ∧
    ∀ l, extract_links page = some l →
      l = (matchedAnchors page).filterMap (fun n => n.attr "href") ∧ l ≠ [] := by
  by_cases h : ((matchedAnchors page).filterMap (fun n => n.attr "href")).length = 0
  · refine ⟨?_, ?_⟩
    · simp [extract_links, h, List.length_eq_zero.mp h]
    · intro l hl
      simp [extract_links, h] at hl
  · have hne : (matchedAnchors page).filterMap (fun n => n.attr "href") ≠ [] := by
      intro heq
      exact h (by simp [heq])
    refine ⟨?_, ?_⟩
    · simp [extract_links, h, hne]
    · intro l hl
      simp only [extract_links, if_neg h, Option.some.injEq] at hl
      exact ⟨hl.symm, hl ▸ hne⟩

/-- Witness for the amended C4: the two hrefs of the test page come back
in document order and nonempty. -/
theorem extract_links_characterization_witness :
    (["https://test_link1", "https://test_link2"] : List String) =
      (matchedAnchors gDoc).filterMap (fun n => n.attr "href") ∧
    (["https://test_link1", "https://test_link2"] : List String) ≠ [] :=
  (extract_links_characterization gDoc).2 ["https://test_link1", "https://test_link2"]
    (by simp [extract_links, matchedAnchors, anchorsUnderForest, anchorsUnder,
      Node.hasClass, Node.classes, Node.attr, gDoc])

/-- C2 (code bug): on a links list whose first in-range link lacks the
"question" substring, `get_results_with_links_only` never terminates —
the `continue` skips the `index` increment, so for every fuel bound the
loop is still running (`none`), against the spec's promise that such a
link is skipped and under-supply ends the loop without error. -/
theorem links_only_nonquestion_diverges (urlParse : String → Option Url) (fuel : Nat) :
    get_results_with_links_only urlParse ["https://example.com/other-page"] 1 fuel = none := by
  rw [get_results_with_links_only, linksOnlyLoop_stuck urlParse fuel []]
  rfl

end Hors
